import Mathlib

/-!
Verification development for the in-process stream-metadata registry of
`src/server/src/metadata.rs` (Parseable server).

The Rust module is shallowly embedded as follows.

* `Stats`, `LogStreamMetadata` are translated field by field; the Rust
  fields have type `u64` resp. `String`, embedded as `Nat` (with explicit
  wrap-around `% 2^64` where the code performs `u64` arithmetic) and
  Lean `String`.
* The global `STREAM_INFO : RwLock<HashMap<String, LogStreamMetadata>>` is
  embedded as a value of type `Registry := String → Option LogStreamMetadata`
  threaded explicitly through every operation.  Each Rust method acquires a
  lock, performs one map operation and releases the lock; it is embedded as
  a pure function `Registry → args → Registry × Except Error Unit` (the
  returned registry is the map after the call, the `Except` is the Rust
  `Result`).  Read-only methods (`schema`, `alert`) take a read lock and
  never touch the map, so they are embedded as `Registry → args →
  Except Error String`.
* The `Error` enum lives in `src/server/src/error.rs`, which is not part of
  the sources at hand; its constructors are modelled from their uses in
  `metadata.rs` and from the spec's error taxonomy (§7): `StreamMetaNotFound`,
  `SchemaNotInStore`, `AlertNotInStore`, a UTF-8 decode failure, and an
  opaque storage error.
* The storage collaborator (`ObjectStorage`) is modelled from the spec §6
  interface boundary: `list_streams`, `get_schema`, `get_alert`, each
  fallible; byte payloads are `List Nat`.
* `parse_string` calls Rust's `String::from_utf8`; the UTF-8 validation /
  decoding algorithm is embedded below (`utf8DecodeAux`) following the
  Unicode byte-class table used by Rust's standard library.
-/

/-- Modulus of Rust `u64` arithmetic: additions in `Stats::update` wrap at
`2 ^ 64` (release-profile semantics of `+=` on `u64`). -/
def U64_MOD : Nat := 2 ^ 64

/-- Embeds `struct Stats` of `metadata.rs` (all fields `u64`). -/
structure Stats where
  size : Nat
  compressed_size : Nat
  prev_compressed : Nat
deriving DecidableEq

/-- Embeds `Stats::default()` (Rust `#[derive(Default)]`: all fields zero). -/
def Stats.default : Stats := Stats.mk 0 0 0

/-- Embeds `Stats::update`:
`self.size += size; self.compressed_size = self.prev_compressed + compressed_size;`
with `u64` wrap-around made explicit. -/
def Stats.update (s : Stats) (size compressed_size : Nat) : Stats :=
  Stats.mk ((s.size + size) % U64_MOD)
    ((s.prev_compressed + compressed_size) % U64_MOD)
    s.prev_compressed

/-- Embeds `struct LogStreamMetadata` of `metadata.rs`. -/
structure LogStreamMetadata where
  schema : String
  alert_config : String
  stats : Stats
deriving DecidableEq

/-- Embeds `LogStreamMetadata::default()`: empty strings and default stats. -/
def LogStreamMetadata.default : LogStreamMetadata :=
  LogStreamMetadata.mk "" "" Stats.default

/-- Embeds the variants of `crate::error::Error` used by `metadata.rs`.
`error.rs` itself is not among the sources; the constructors are modelled
from their construction sites in `metadata.rs` and the spec's error
taxonomy (§7).  `Utf8Error` stands for the `FromUtf8Error` conversion done
by `parse_string`'s `e.into()`; `Storage` stands for the storage
collaborator's own error kind, converted by `?` in `load`. -/
inductive Error where
  | StreamMetaNotFound (name : String)
  | SchemaNotInStore (name : String)
  | AlertNotInStore (name : String)
  | Utf8Error
  | Storage (msg : String)
deriving DecidableEq

/-- Embeds the guarded `HashMap<String, LogStreamMetadata>` behind
`STREAM_INFO`'s `RwLock` as a partial map. -/
def Registry : Type := String → Option LogStreamMetadata

/-- Embeds `HashMap::new()`: the registry at process start. -/
def Registry.empty : Registry := fun _ => none

/-- Embeds `map.insert(k, v)` (create-or-replace under the write lock). -/
def Registry.insert (m : Registry) (k : String) (v : LogStreamMetadata) : Registry :=
  fun n => if n = k then some v else m n

/-- Embeds `map.remove(k)` under the write lock. -/
def Registry.remove (m : Registry) (k : String) : Registry :=
  fun n => if n = k then none else m n

/-- Decoder for UTF-8 byte sequences, embedding the validation and decoding
performed by Rust's `String::from_utf8` (std `run_utf8_validation`): ASCII
bytes stand alone; `0xC2-0xDF` open a two-byte sequence; `0xE0-0xEF` a
three-byte sequence (with the `0xE0` overlong and `0xED` surrogate
restrictions on the second byte); `0xF0-0xF4` a four-byte sequence (with the
`0xF0` overlong and `0xF4` out-of-range restrictions).  The first argument is
fuel, always called with at least the length of the byte list. -/
def utf8DecodeAux : Nat → List Nat → Option (List Char)
  | _, [] => some []
  | 0, _ :: _ => none
  | fuel + 1, b :: rest =>
    if b < 0x80 then
      (utf8DecodeAux fuel rest).map (fun cs => Char.ofNat b :: cs)
    else if 0xC2 ≤ b ∧ b ≤ 0xDF then
      match rest with
      | b1 :: rest2 =>
        if 0x80 ≤ b1 ∧ b1 < 0xC0 then
          (utf8DecodeAux fuel rest2).map (fun cs =>
            Char.ofNat ((b - 0xC0) * 0x40 + (b1 - 0x80)) :: cs)
        else none
      | [] => none
    else if 0xE0 ≤ b ∧ b ≤ 0xEF then
      match rest with
      | b1 :: b2 :: rest3 =>
        if (if b = 0xE0 then 0xA0 ≤ b1 ∧ b1 < 0xC0
            else if b = 0xED then 0x80 ≤ b1 ∧ b1 < 0xA0
            else 0x80 ≤ b1 ∧ b1 < 0xC0) ∧ 0x80 ≤ b2 ∧ b2 < 0xC0 then
          (utf8DecodeAux fuel rest3).map (fun cs =>
            Char.ofNat ((b - 0xE0) * 0x1000 + (b1 - 0x80) * 0x40 + (b2 - 0x80)) :: cs)
        else none
      | _ => none
    else if 0xF0 ≤ b ∧ b ≤ 0xF4 then
      match rest with
      | b1 :: b2 :: b3 :: rest4 =>
        if (if b = 0xF0 then 0x90 ≤ b1 ∧ b1 < 0xC0
            else if b = 0xF4 then 0x80 ≤ b1 ∧ b1 < 0x90
            else 0x80 ≤ b1 ∧ b1 < 0xC0) ∧ (0x80 ≤ b2 ∧ b2 < 0xC0) ∧
            (0x80 ≤ b3 ∧ b3 < 0xC0) then
          (utf8DecodeAux fuel rest4).map (fun cs =>
            Char.ofNat ((b - 0xF0) * 0x40000 + (b1 - 0x80) * 0x1000 +
              (b2 - 0x80) * 0x40 + (b3 - 0x80)) :: cs)
        else none
      | _ => none
    else none

/-- Runs the UTF-8 decoder with sufficient fuel. -/
def utf8Decode (bytes : List Nat) : Option (List Char) :=
  utf8DecodeAux bytes.length bytes

/-- Reference UTF-8 encoder for a single scalar value (the Unicode
definition); used to state what a *valid* UTF-8 byte sequence is. -/
def utf8EncodeChar (c : Char) : List Nat :=
  let n := c.toNat
  if n < 0x80 then [n]
  else if n < 0x800 then [0xC0 + n / 0x40, 0x80 + n % 0x40]
  else if n < 0x10000 then
    [0xE0 + n / 0x1000, 0x80 + n / 0x40 % 0x40, 0x80 + n % 0x40]
  else
    [0xF0 + n / 0x40000, 0x80 + n / 0x1000 % 0x40, 0x80 + n / 0x40 % 0x40,
      0x80 + n % 0x40]

/-- Reference UTF-8 encoding of a character sequence; `bytes` is valid UTF-8
precisely when it is `utf8Encode cs` for some `cs`. -/
def utf8Encode (cs : List Char) : List Nat :=
  (cs.map utf8EncodeChar).flatten

/-- Embeds `parse_string` of `metadata.rs`:
`String::from_utf8(bytes.to_vec()).map_err(|e| e.into())`. -/
def parse_string (bytes : List Nat) : Except Error String :=
  match utf8Decode bytes with
  | some cs => Except.ok (String.mk cs)
  | none => Except.error Error.Utf8Error

/-- Embeds the stream descriptor returned by `storage.list_streams()`
(spec §6: a sequence of `{name}`). -/
structure LogStream where
  name : String
deriving DecidableEq

/-- Embeds the `ObjectStorage` collaborator at its interface boundary
(spec §6): enumeration of streams plus per-stream schema/alert byte fetches,
each fallible.  A concrete collaborator is a value of this structure. -/
structure ObjectStorage where
  list_streams : Except Error (List LogStream)
  get_schema : String → Except Error (List Nat)
  get_alert : String → Except Error (List Nat)

namespace STREAM_INFO

/-- Embeds `STREAM_INFO::schema`: read lock, lookup, clone of the schema. -/
def schema (m : Registry) (stream_name : String) : Except Error String :=
  match m stream_name with
  | some meta => Except.ok meta.schema
  | none => Except.error (Error.StreamMetaNotFound stream_name)

/-- Embeds `STREAM_INFO::alert`: read lock, lookup, clone of the alert. -/
def alert (m : Registry) (stream_name : String) : Except Error String :=
  match m stream_name with
  | some meta => Except.ok meta.alert_config
  | none => Except.error (Error.StreamMetaNotFound stream_name)

/-- Embeds `STREAM_INFO::add_stream`: write lock, unconditional insert of a
fresh record whose remaining field (`stats`) is defaulted by
`..Default::default()`; always returns `Ok(())`. -/
def add_stream (m : Registry) (stream_name schema alert_config : String) :
    Registry × Except Error Unit :=
  (m.insert stream_name (LogStreamMetadata.mk schema alert_config Stats.default),
    Except.ok ())

/-- Embeds `STREAM_INFO::delete_stream`: write lock, `map.remove`, always
`Ok(())`. -/
def delete_stream (m : Registry) (stream_name : String) :
    Registry × Except Error Unit :=
  (m.remove stream_name, Except.ok ())

/-- Embeds `STREAM_INFO::set_schema`: first `self.alert(&stream_name)?`
(one read-lock acquisition), then `self.add_stream(..)` (a second,
write-lock acquisition). -/
def set_schema (m : Registry) (stream_name schema : String) :
    Registry × Except Error Unit :=
  match alert m stream_name with
  | Except.ok alert_config => add_stream m stream_name schema alert_config
  | Except.error e => (m, Except.error e)

/-- Embeds `STREAM_INFO::set_alert`: first `self.schema(&stream_name)?`,
then `self.add_stream(..)`. -/
def set_alert (m : Registry) (stream_name alert_config : String) :
    Registry × Except Error Unit :=
  match schema m stream_name with
  | Except.ok s => add_stream m stream_name s alert_config
  | Except.error e => (m, Except.error e)

/-- Embeds `STREAM_INFO::update_stats`: write lock, `get_mut` failing with
`StreamMetaNotFound`, then `stream.stats.update(size, compressed_size)` in
place. -/
def update_stats (m : Registry) (stream_name : String)
    (size compressed_size : Nat) : Registry × Except Error Unit :=
  match m stream_name with
  | some stream =>
    (m.insert stream_name
      (LogStreamMetadata.mk stream.schema stream.alert_config
        (stream.stats.update size compressed_size)), Except.ok ())
  | none => (m, Except.error (Error.StreamMetaNotFound stream_name))

/-- Embeds Rust's `Result::unwrap_or_default` at type `String`. -/
def unwrapOrDefault (r : Except Error String) : String :=
  match r with
  | Except.ok s => s
  | Except.error _ => ""

/-- Embeds `.map_err(|_| tag)` at type `Result<String, Error>`. -/
def mapErrTo (tag : Error) (r : Except Error String) : Except Error String :=
  match r with
  | Except.ok s => Except.ok s
  | Except.error _ => Except.error tag

/-- One iteration body of `STREAM_INFO::load`: fetch alert and schema bytes,
decode them with `parse_string`, tag failures as `AlertNotInStore` /
`SchemaNotInStore`, and fall back to the empty string (`unwrap_or_default`)
for the record's fields; `stats` is defaulted. -/
def loadStreamMeta (storage : ObjectStorage) (name : String) :
    LogStreamMetadata :=
  let alert_config :=
    mapErrTo (Error.AlertNotInStore name) ((storage.get_alert name).bind parse_string)
  let schema :=
    mapErrTo (Error.SchemaNotInStore name) ((storage.get_schema name).bind parse_string)
  LogStreamMetadata.mk (unwrapOrDefault schema) (unwrapOrDefault alert_config)
    Stats.default

/-- Embeds `STREAM_INFO::load`: `storage.list_streams().await?` (failure
propagated), then for each listed stream the per-stream record is built by
`loadStreamMeta` and inserted under the write lock. -/
def load (m : Registry) (storage : ObjectStorage) :
    Registry × Except Error Unit :=
  match storage.list_streams with
  | Except.error e => (m, Except.error e)
  | Except.ok streams =>
    (streams.foldl
      (fun map stream => map.insert stream.name (loadStreamMeta storage stream.name))
      m, Except.ok ())

end STREAM_INFO

deriving instance DecidableEq for Except

/-- Sample registry holding one stream with non-default stats; used to
instantiate theorems on concrete inputs. -/
def sampleReg : Registry :=
  Registry.empty.insert "s" (LogStreamMetadata.mk "sch" "al" (Stats.mk 3 4 5))

/-- C1 as literally stated is false: `Stats::update` adds with `u64`
arithmetic, which wraps at `2 ^ 64`, so starting from `size = 2 ^ 64 - 1`
and `size_delta = 1` the resulting `size` is `0`, not `size + size_delta`. -/
theorem C1_counterexample_overflow :
    (Stats.update (Stats.mk (2 ^ 64 - 1) 0 0) 1 0).size ≠ (2 ^ 64 - 1) + 1 := by
  decide

/-- C1 (amended): whenever `size + size_delta` and
`prev_compressed + compressed_delta` do not exceed the `u64` range, after
`Stats::update(size_delta, compressed_delta)` the resulting `size` equals
`size + size_delta`, the resulting `compressed_size` equals
`prev_compressed + compressed_delta` (the old `compressed_size` does not
contribute), and `prev_compressed` is unchanged. -/
theorem C1_stats_update (st : Stats) (size_delta compressed_delta : Nat)
    (h1 : st.size + size_delta < 2 ^ 64)
    (h2 : st.prev_compressed + compressed_delta < 2 ^ 64) :
    (st.update size_delta compressed_delta).size = st.size + size_delta ∧
    (st.update size_delta compressed_delta).compressed_size
      = st.prev_compressed + compressed_delta ∧
    (st.update size_delta compressed_delta).prev_compressed
      = st.prev_compressed := by
  unfold Stats.update U64_MOD
  exact ⟨Nat.mod_eq_of_lt h1, Nat.mod_eq_of_lt h2, rfl⟩

/-- Witness for C1 on the spec §8 example: `{size:1024, compressed_size:512,
prev_compressed:2048}` updated with `(2056, 2000)` yields
`{size:3080, compressed_size:4048, prev_compressed:2048}`. -/
theorem C1_stats_update_witness :
    (Stats.update (Stats.mk 1024 512 2048) 2056 2000).size = 1024 + 2056 ∧
    (Stats.update (Stats.mk 1024 512 2048) 2056 2000).compressed_size
      = 2048 + 2000 ∧
    (Stats.update (Stats.mk 1024 512 2048) 2056 2000).prev_compressed = 2048 :=
  C1_stats_update (Stats.mk 1024 512 2048) 2056 2000 (by decide) (by decide)

/-- C4: `add_stream(name, schema, alert)` always returns `Ok(())` (no error
path); afterwards the registry maps `name` to exactly
`{schema, alert_config: alert, stats: default}` — overwriting whatever entry
(and stats) was there before, since the conclusion holds for every starting
registry `m` — and every other name is mapped as before. -/
theorem C4_add_stream (m : Registry) (name s a : String) :
    (STREAM_INFO.add_stream m name s a).2 = Except.ok () ∧
    (STREAM_INFO.add_stream m name s a).1 name
      = some (LogStreamMetadata.mk s a Stats.default) ∧
    (∀ n, n ≠ name → (STREAM_INFO.add_stream m name s a).1 n = m n) := by
  refine ⟨rfl, ?_, ?_⟩
  · simp [STREAM_INFO.add_stream, Registry.insert]
  · intro n hn
    simp [STREAM_INFO.add_stream, Registry.insert, hn]

/-- Witness for C4 on the spec §8 example: `add_stream("s", "schema",
"alert")` on the empty registry yields exactly the singleton registry. -/
theorem C4_add_stream_witness :
    (STREAM_INFO.add_stream Registry.empty "s" "schema" "alert").2
      = Except.ok () ∧
    (STREAM_INFO.add_stream Registry.empty "s" "schema" "alert").1 "s"
      = some (LogStreamMetadata.mk "schema" "alert" Stats.default) ∧
    (STREAM_INFO.add_stream Registry.empty "s" "schema" "alert").1 "t"
      = Registry.empty "t" :=
  ⟨(C4_add_stream Registry.empty "s" "schema" "alert").1,
   (C4_add_stream Registry.empty "s" "schema" "alert").2.1,
   (C4_add_stream Registry.empty "s" "schema" "alert").2.2 "t" (by decide)⟩

/-- C5: `delete_stream(name)` always returns `Ok(())`; afterwards `name` has
no entry while every other name is mapped as before; and the call is
idempotent — deleting again from the resulting registry returns the very
same registry-and-outcome pair (in particular, deleting an absent stream is
not an error). -/
theorem C5_delete_stream (m : Registry) (name : String) :
    (STREAM_INFO.delete_stream m name).2 = Except.ok () ∧
    (STREAM_INFO.delete_stream m name).1 name = none ∧
    (∀ n, n ≠ name → (STREAM_INFO.delete_stream m name).1 n = m n) ∧
    STREAM_INFO.delete_stream (STREAM_INFO.delete_stream m name).1 name
      = STREAM_INFO.delete_stream m name := by
  refine ⟨rfl, ?_, ?_, ?_⟩
  · simp [STREAM_INFO.delete_stream, Registry.remove]
  · intro n hn
    simp [STREAM_INFO.delete_stream, Registry.remove, hn]
  · show ((m.remove name).remove name, Except.ok ())
        = (m.remove name, Except.ok ())
    have h : (m.remove name).remove name = m.remove name := by
      funext n
      unfold Registry.remove
      by_cases hn : n = name <;> simp [hn]
    rw [h]

/-- Witness for C5 on the spec §8 example: adding `"s"` then deleting it
leaves no entry for `"s"`, other keys are untouched, and a second delete is
the same no-op success. -/
theorem C5_delete_stream_witness :
    (STREAM_INFO.delete_stream sampleReg "s").2 = Except.ok () ∧
    (STREAM_INFO.delete_stream sampleReg "s").1 "s" = none ∧
    (STREAM_INFO.delete_stream sampleReg "s").1 "t" = sampleReg "t" ∧
    STREAM_INFO.delete_stream (STREAM_INFO.delete_stream sampleReg "s").1 "s"
      = STREAM_INFO.delete_stream sampleReg "s" :=
  ⟨(C5_delete_stream sampleReg "s").1,
   (C5_delete_stream sampleReg "s").2.1,
   (C5_delete_stream sampleReg "s").2.2.1 "t" (by decide),
   (C5_delete_stream sampleReg "s").2.2.2⟩

/-- C2: on a registry with an entry for `name`, `set_schema(name, s)`
replaces the entry wholesale with `{schema: s, alert_config: previous
alert_config, stats: default}` and `set_alert(name, a)` replaces it with
`{schema: previous schema, alert_config: a, stats: default}` (both reset
stats, since the write goes through `add_stream`); when `name` has no entry
both fail with `StreamMetaNotFound(name)` and return the registry
unchanged. -/
theorem C2_set_schema_set_alert (m : Registry) (name s a : String) :
    (m name = none →
      STREAM_INFO.set_schema m name s
        = (m, Except.error (Error.StreamMetaNotFound name)) ∧
      STREAM_INFO.set_alert m name a
        = (m, Except.error (Error.StreamMetaNotFound name))) ∧
    (∀ e, m name = some e →
      STREAM_INFO.set_schema m name s
        = (m.insert name (LogStreamMetadata.mk s e.alert_config Stats.default),
            Except.ok ()) ∧
      STREAM_INFO.set_alert m name a
        = (m.insert name (LogStreamMetadata.mk e.schema a Stats.default),
            Except.ok ())) := by
  constructor
  · intro h
    constructor <;>
      simp [STREAM_INFO.set_schema, STREAM_INFO.set_alert, STREAM_INFO.alert,
        STREAM_INFO.schema, h]
  · intro e h
    constructor <;>
      simp [STREAM_INFO.set_schema, STREAM_INFO.set_alert, STREAM_INFO.alert,
        STREAM_INFO.schema, STREAM_INFO.add_stream, h]

/-- Witness for C2: on the sample registry (entry `"s"` with schema `"sch"`,
alert `"al"`, stats `(3,4,5)`), `set_schema` keeps the alert and resets
stats, `set_alert` keeps the schema and resets stats, and both fail on the
empty registry. -/
theorem C2_set_schema_set_alert_witness :
    STREAM_INFO.set_schema sampleReg "s" "sch2"
      = (sampleReg.insert "s" (LogStreamMetadata.mk "sch2" "al" Stats.default),
          Except.ok ()) ∧
    STREAM_INFO.set_alert sampleReg "s" "al2"
      = (sampleReg.insert "s" (LogStreamMetadata.mk "sch" "al2" Stats.default),
          Except.ok ()) ∧
    STREAM_INFO.set_schema Registry.empty "x" "y"
      = (Registry.empty, Except.error (Error.StreamMetaNotFound "x")) :=
  ⟨((C2_set_schema_set_alert sampleReg "s" "sch2" "al2").2
      (LogStreamMetadata.mk "sch" "al" (Stats.mk 3 4 5)) (by decide)).1,
   ((C2_set_schema_set_alert sampleReg "s" "sch2" "al2").2
      (LogStreamMetadata.mk "sch" "al" (Stats.mk 3 4 5)) (by decide)).2,
   ((C2_set_schema_set_alert Registry.empty "x" "y" "z").1 rfl).1⟩

/-- C3: `schema(name)` and `alert(name)` fail with `StreamMetaNotFound(name)`
exactly when the registry has no entry for `name`, and otherwise return the
stored schema / alert-config text; `update_stats(name, sd, cd)` fails with
`StreamMetaNotFound(name)` exactly when no entry exists, and otherwise
applies `Stats::update` in place to that entry's stats. -/
theorem C3_lookup_update_not_found (m : Registry) (name : String)
    (sd cd : Nat) :
    (STREAM_INFO.schema m name = Except.error (Error.StreamMetaNotFound name)
      ↔ m name = none) ∧
    (STREAM_INFO.alert m name = Except.error (Error.StreamMetaNotFound name)
      ↔ m name = none) ∧
    ((STREAM_INFO.update_stats m name sd cd).2
        = Except.error (Error.StreamMetaNotFound name) ↔ m name = none) ∧
    (∀ e, m name = some e →
      STREAM_INFO.schema m name = Except.ok e.schema ∧
      STREAM_INFO.alert m name = Except.ok e.alert_config ∧
      STREAM_INFO.update_stats m name sd cd
        = (m.insert name (LogStreamMetadata.mk e.schema e.alert_config
            (e.stats.update sd cd)), Except.ok ())) := by
  refine ⟨?_, ?_, ?_, ?_⟩ <;> cases h : m name <;>
    simp [STREAM_INFO.schema, STREAM_INFO.alert, STREAM_INFO.update_stats, h]

/-- Witness for C3 on the spec §8 example: `schema`, `alert` and
`update_stats` on a missing key all fail with not-found, and on the sample
registry they return the stored texts resp. update the stats in place. -/
theorem C3_lookup_update_not_found_witness :
    STREAM_INFO.schema Registry.empty "missing"
      = Except.error (Error.StreamMetaNotFound "missing") ∧
    STREAM_INFO.alert Registry.empty "missing"
      = Except.error (Error.StreamMetaNotFound "missing") ∧
    (STREAM_INFO.update_stats Registry.empty "missing" 1 1).2
      = Except.error (Error.StreamMetaNotFound "missing") ∧
    STREAM_INFO.schema sampleReg "s" = Except.ok "sch" ∧
    STREAM_INFO.alert sampleReg "s" = Except.ok "al" ∧
    STREAM_INFO.update_stats sampleReg "s" 10 20
      = (sampleReg.insert "s" (LogStreamMetadata.mk "sch" "al"
          ((Stats.mk 3 4 5).update 10 20)), Except.ok ()) :=
  ⟨(C3_lookup_update_not_found Registry.empty "missing" 1 1).1.mpr rfl,
   (C3_lookup_update_not_found Registry.empty "missing" 1 1).2.1.mpr rfl,
   (C3_lookup_update_not_found Registry.empty "missing" 1 1).2.2.1.mpr rfl,
   ((C3_lookup_update_not_found sampleReg "s" 10 20).2.2.2
      (LogStreamMetadata.mk "sch" "al" (Stats.mk 3 4 5)) (by decide)).1,
   ((C3_lookup_update_not_found sampleReg "s" 10 20).2.2.2
      (LogStreamMetadata.mk "sch" "al" (Stats.mk 3 4 5)) (by decide)).2.1,
   ((C3_lookup_update_not_found sampleReg "s" 10 20).2.2.2
      (LogStreamMetadata.mk "sch" "al" (Stats.mk 3 4 5)) (by decide)).2.2⟩

/-- C9 (frame property of `update_stats`): a successful
`update_stats(name, sd, cd)` leaves the entry's `schema` and `alert_config`
fields as they were — only `stats` changes, via `Stats::update` — and every
entry under any other name is entirely unchanged. -/
theorem C9_update_stats_frame (m : Registry) (name : String) (sd cd : Nat)
    (e : LogStreamMetadata) (h : m name = some e) :
    (STREAM_INFO.update_stats m name sd cd).2 = Except.ok () ∧
    (STREAM_INFO.update_stats m name sd cd).1 name
      = some (LogStreamMetadata.mk e.schema e.alert_config
          (e.stats.update sd cd)) ∧
    (∀ n, n ≠ name → (STREAM_INFO.update_stats m name sd cd).1 n = m n) := by
  refine ⟨?_, ?_, ?_⟩
  · simp [STREAM_INFO.update_stats, h]
  · simp [STREAM_INFO.update_stats, Registry.insert, h]
  · intro n hn
    simp [STREAM_INFO.update_stats, Registry.insert, h, hn]

/-- Witness for C9: updating the stats of `"s"` in the sample registry keeps
its schema `"sch"` and alert `"al"`, and leaves the absent key `"t"`
untouched. -/
theorem C9_update_stats_frame_witness :
    (STREAM_INFO.update_stats sampleReg "s" 7 9).2 = Except.ok () ∧
    (STREAM_INFO.update_stats sampleReg "s" 7 9).1 "s"
      = some (LogStreamMetadata.mk "sch" "al" ((Stats.mk 3 4 5).update 7 9)) ∧
    (STREAM_INFO.update_stats sampleReg "s" 7 9).1 "t" = sampleReg "t" :=
  ⟨(C9_update_stats_frame sampleReg "s" 7 9
      (LogStreamMetadata.mk "sch" "al" (Stats.mk 3 4 5)) (by decide)).1,
   (C9_update_stats_frame sampleReg "s" 7 9
      (LogStreamMetadata.mk "sch" "al" (Stats.mk 3 4 5)) (by decide)).2.1,
   (C9_update_stats_frame sampleReg "s" 7 9
      (LogStreamMetadata.mk "sch" "al" (Stats.mk 3 4 5)) (by decide)).2.2 "t"
     (by decide)⟩

/-- C10 (error atomicity): whenever `set_schema`, `set_alert` or
`update_stats` returns an error, the registry after the call is exactly the
registry before it.  The two remaining operations named by the claim,
`schema` and `alert`, are embedded as read-only functions (they take a read
lock and perform no map mutation in the source), so for them the property
holds by the very shape of the embedding. -/
theorem C10_error_path_preserves_registry (m : Registry) (name s a : String)
    (sd cd : Nat) (e : Error) :
    ((STREAM_INFO.set_schema m name s).2 = Except.error e →
      (STREAM_INFO.set_schema m name s).1 = m) ∧
    ((STREAM_INFO.set_alert m name a).2 = Except.error e →
      (STREAM_INFO.set_alert m name a).1 = m) ∧
    ((STREAM_INFO.update_stats m name sd cd).2 = Except.error e →
      (STREAM_INFO.update_stats m name sd cd).1 = m) := by
  refine ⟨?_, ?_, ?_⟩ <;> cases h : m name <;>
    simp [STREAM_INFO.set_schema, STREAM_INFO.set_alert, STREAM_INFO.alert,
      STREAM_INFO.schema, STREAM_INFO.update_stats, STREAM_INFO.add_stream, h]

/-- Witness for C10: on the empty registry all three mutators fail, and each
returns the empty registry itself. -/
theorem C10_error_path_preserves_registry_witness :
    (STREAM_INFO.set_schema Registry.empty "x" "y").1 = Registry.empty ∧
    (STREAM_INFO.set_alert Registry.empty "x" "y").1 = Registry.empty ∧
    (STREAM_INFO.update_stats Registry.empty "x" 1 2).1 = Registry.empty :=
  ⟨(C10_error_path_preserves_registry Registry.empty "x" "y" "y" 1 2
      (Error.StreamMetaNotFound "x")).1 rfl,
   (C10_error_path_preserves_registry Registry.empty "x" "y" "y" 1 2
      (Error.StreamMetaNotFound "x")).2.1 rfl,
   (C10_error_path_preserves_registry Registry.empty "x" "y" "y" 1 2
      (Error.StreamMetaNotFound "x")).2.2 rfl⟩

/-- C7: `set_schema` / `set_alert` are two-phase read-then-write operations:
whenever the read phase succeeds, the whole call literally equals an
`add_stream` built from the value read in the first phase (first two
conjuncts).  Interleaving another operation between the two phases (each
phase holds the lock separately in the source) therefore produces the
claimed anomalies, shown here on concrete schedules over the sample
registry: a `delete_stream` between `set_schema`'s read and write phases
ends with the deleted stream present again (resurrection); a concurrent
`set_alert` writing `"al2"` is overwritten by the write phase carrying the
stale alert `"al"` (lost update, last write wins); and a concurrent
`update_stats` change is clobbered because the write phase replaces the
full record with default stats. -/
theorem C7_set_schema_set_alert_not_atomic :
    (∀ (m : Registry) (n s a : String),
      STREAM_INFO.alert m n = Except.ok a →
      STREAM_INFO.set_schema m n s = STREAM_INFO.add_stream m n s a) ∧
    (∀ (m : Registry) (n a s : String),
      STREAM_INFO.schema m n = Except.ok s →
      STREAM_INFO.set_alert m n a = STREAM_INFO.add_stream m n s a) ∧
    (STREAM_INFO.alert sampleReg "s" = Except.ok "al" ∧
      (STREAM_INFO.delete_stream sampleReg "s").1 "s" = none ∧
      (STREAM_INFO.add_stream (STREAM_INFO.delete_stream sampleReg "s").1
          "s" "sch2" "al").1 "s"
        = some (LogStreamMetadata.mk "sch2" "al" Stats.default)) ∧
    ((STREAM_INFO.set_alert sampleReg "s" "al2").1 "s"
        = some (LogStreamMetadata.mk "sch" "al2" Stats.default) ∧
      (STREAM_INFO.add_stream (STREAM_INFO.set_alert sampleReg "s" "al2").1
          "s" "sch2" "al").1 "s"
        = some (LogStreamMetadata.mk "sch2" "al" Stats.default)) ∧
    ((STREAM_INFO.update_stats sampleReg "s" 7 9).1 "s"
        = some (LogStreamMetadata.mk "sch" "al" ((Stats.mk 3 4 5).update 7 9)) ∧
      (STREAM_INFO.add_stream (STREAM_INFO.update_stats sampleReg "s" 7 9).1
          "s" "sch2" "al").1 "s"
        = some (LogStreamMetadata.mk "sch2" "al" Stats.default)) := by
  refine ⟨?_, ?_, ⟨?_, ?_, ?_⟩, ⟨?_, ?_⟩, ⟨?_, ?_⟩⟩
  · intro m n s a h
    unfold STREAM_INFO.set_schema
    rw [h]
  · intro m n a s h
    unfold STREAM_INFO.set_alert
    rw [h]
  all_goals decide

/-- Witness for C7's two-phase decomposition on the sample registry. -/
theorem C7_set_schema_set_alert_not_atomic_witness :
    STREAM_INFO.set_schema sampleReg "s" "sch9"
      = STREAM_INFO.add_stream sampleReg "s" "sch9" "al" ∧
    STREAM_INFO.set_alert sampleReg "s" "al9"
      = STREAM_INFO.add_stream sampleReg "s" "sch" "al9" :=
  ⟨C7_set_schema_set_alert_not_atomic.1 sampleReg "s" "sch9" "al" (by decide),
   C7_set_schema_set_alert_not_atomic.2.1 sampleReg "s" "al9" "sch" (by decide)⟩

/-- Lookup after `load`'s insertion fold: a name listed by the collaborator
is bound to the record fetched for it (the record depends only on the name,
so duplicates in the listing are harmless), any other name keeps its prior
binding. -/
theorem load_foldl_lookup (storage : ObjectStorage) (streams : List LogStream)
    (m : Registry) (n : String) :
    (streams.foldl
      (fun map stream =>
        map.insert stream.name (STREAM_INFO.loadStreamMeta storage stream.name))
      m) n
      = if streams.any (fun s => s.name == n)
        then some (STREAM_INFO.loadStreamMeta storage n)
        else m n := by
  induction streams generalizing m with
  | nil => simp
  | cons s rest ih =>
    simp only [List.foldl_cons, List.any_cons, ih]
    by_cases hrest : rest.any (fun s => s.name == n)
    · simp [hrest]
    · by_cases hs : s.name = n
      · subst hs
        simp [hrest, Registry.insert]
      · simp [hrest, hs, Registry.insert, Ne.symm hs]

/-- C6: whenever the collaborator's `list_streams` succeeds, `load` returns
success after processing all listed streams; every listed stream name is
bound to a freshly built record whose `stats` is default and whose schema /
alert field falls back to the empty string when the corresponding fetch
fails or its bytes are not valid UTF-8 (and carries the decoded text when
the fetch-and-decode succeeds); names not listed keep their prior binding;
and a failure of `list_streams` itself is propagated verbatim and is fatal
to the whole `load` call, which then leaves the registry unchanged. -/
theorem C6_load (m : Registry) (storage : ObjectStorage) :
    (∀ e, storage.list_streams = Except.error e →
      STREAM_INFO.load m storage = (m, Except.error e)) ∧
    (∀ streams, storage.list_streams = Except.ok streams →
      (STREAM_INFO.load m storage).2 = Except.ok () ∧
      (∀ s, s ∈ streams →
        (STREAM_INFO.load m storage).1 s.name
          = some (STREAM_INFO.loadStreamMeta storage s.name)) ∧
      (∀ n, (∀ s, s ∈ streams → s.name ≠ n) →
        (STREAM_INFO.load m storage).1 n = m n)) ∧
    (∀ n, (STREAM_INFO.loadStreamMeta storage n).stats = Stats.default) ∧
    (∀ n e, (storage.get_schema n).bind parse_string = Except.error e →
      (STREAM_INFO.loadStreamMeta storage n).schema = "") ∧
    (∀ n str, (storage.get_schema n).bind parse_string = Except.ok str →
      (STREAM_INFO.loadStreamMeta storage n).schema = str) ∧
    (∀ n e, (storage.get_alert n).bind parse_string = Except.error e →
      (STREAM_INFO.loadStreamMeta storage n).alert_config = "") ∧
    (∀ n str, (storage.get_alert n).bind parse_string = Except.ok str →
      (STREAM_INFO.loadStreamMeta storage n).alert_config = str) := by
  refine ⟨?_, ?_, ?_, ?_, ?_, ?_, ?_⟩
  · intro e h
    unfold STREAM_INFO.load
    rw [h]
  · intro streams h
    have hload : STREAM_INFO.load m storage
        = (streams.foldl (fun map stream =>
            map.insert stream.name
              (STREAM_INFO.loadStreamMeta storage stream.name)) m,
          Except.ok ()) := by
      unfold STREAM_INFO.load
      rw [h]
    refine ⟨by rw [hload], ?_, ?_⟩
    · intro s hs
      have hany : streams.any (fun t => t.name == s.name) = true :=
        List.any_eq_true.mpr ⟨s, hs, by simp⟩
      simp [hload, load_foldl_lookup, hany]
    · intro n hn
      have hany : streams.any (fun t => t.name == n) = false := by
        rw [List.any_eq_false]
        intro t ht
        simpa using hn t ht
      simp [hload, load_foldl_lookup, hany]
  · intro n
    simp [STREAM_INFO.loadStreamMeta]
  · intro n e h
    simp [STREAM_INFO.loadStreamMeta, STREAM_INFO.mapErrTo,
      STREAM_INFO.unwrapOrDefault, h]
  · intro n str h
    simp [STREAM_INFO.loadStreamMeta, STREAM_INFO.mapErrTo,
      STREAM_INFO.unwrapOrDefault, h]
  · intro n e h
    simp [STREAM_INFO.loadStreamMeta, STREAM_INFO.mapErrTo,
      STREAM_INFO.unwrapOrDefault, h]
  · intro n str h
    simp [STREAM_INFO.loadStreamMeta, STREAM_INFO.mapErrTo,
      STREAM_INFO.unwrapOrDefault, h]

/-- Sample storage collaborator: lists `"s1"` and `"s2"`; schema bytes decode
to `"hi"` for `"s1"` but are invalid UTF-8 for `"s2"`; every alert fetch
fails outright. -/
def sampleStorage : ObjectStorage :=
  ObjectStorage.mk (Except.ok [LogStream.mk "s1", LogStream.mk "s2"])
    (fun n => if n = "s1" then Except.ok [0x68, 0x69]
      else Except.ok [0xC3, 0x28])
    (fun _ => Except.error (Error.Storage "alert fetch failed"))

/-- Sample storage collaborator whose stream enumeration itself fails. -/
def downStorage : ObjectStorage :=
  ObjectStorage.mk (Except.error (Error.Storage "list failed"))
    (fun _ => Except.ok []) (fun _ => Except.ok [])

/-- Witness for C6: loading from the sample storage succeeds, seeds both
listed streams (empty alert everywhere, empty schema for the corrupt
stream, decoded text for the healthy one, default stats), leaves unlisted
names alone; loading from the broken storage propagates its enumeration
error and keeps the registry empty. -/
theorem C6_load_witness :
    STREAM_INFO.load Registry.empty downStorage
      = (Registry.empty, Except.error (Error.Storage "list failed")) ∧
    (STREAM_INFO.load Registry.empty sampleStorage).2 = Except.ok () ∧
    (STREAM_INFO.load Registry.empty sampleStorage).1 "s1"
      = some (STREAM_INFO.loadStreamMeta sampleStorage "s1") ∧
    (STREAM_INFO.load Registry.empty sampleStorage).1 "other"
      = Registry.empty "other" ∧
    (STREAM_INFO.loadStreamMeta sampleStorage "s1").schema = "hi" ∧
    (STREAM_INFO.loadStreamMeta sampleStorage "s2").schema = "" ∧
    (STREAM_INFO.loadStreamMeta sampleStorage "s1").alert_config = "" ∧
    (STREAM_INFO.loadStreamMeta sampleStorage "s1").stats = Stats.default :=
  ⟨(C6_load Registry.empty downStorage).1 (Error.Storage "list failed") rfl,
   ((C6_load Registry.empty sampleStorage).2.1
      [LogStream.mk "s1", LogStream.mk "s2"] rfl).1,
   ((C6_load Registry.empty sampleStorage).2.1
      [LogStream.mk "s1", LogStream.mk "s2"] rfl).2.1
      (LogStream.mk "s1") (by decide),
   ((C6_load Registry.empty sampleStorage).2.1
      [LogStream.mk "s1", LogStream.mk "s2"] rfl).2.2 "other" (by decide),
   (C6_load Registry.empty sampleStorage).2.2.2.2.1 "s1" "hi" (by decide),
   (C6_load Registry.empty sampleStorage).2.2.2.1 "s2" Error.Utf8Error
     (by decide),
   (C6_load Registry.empty sampleStorage).2.2.2.2.2.1 "s1"
     (Error.Storage "alert fetch failed") (by decide),
   (C6_load Registry.empty sampleStorage).2.2.1 "s1"⟩

/-- Characters hold valid Unicode scalar values. -/
theorem char_valid_toNat (c : Char) : c.toNat.isValidChar := c.valid

/-- Converting a valid scalar value to `Char` and back is the identity. -/
theorem char_toNat_ofNat (n : Nat) (h : n.isValidChar) :
    (Char.ofNat n).toNat = n := by
  unfold Char.ofNat
  rw [dif_pos h]
  simp [Char.ofNatAux, Char.toNat, UInt32.toNat]

/-- Encoding a cons is the head's encoding followed by the tail's. -/
theorem utf8Encode_cons (c : Char) (l : List Char) :
    utf8Encode (c :: l) = utf8EncodeChar c ++ utf8Encode l := by
  simp [utf8Encode]

/-- Completeness of the embedded decoder: with enough fuel it accepts every
encoded character sequence and returns exactly that sequence. -/
theorem utf8DecodeAux_encode (cs : List Char) :
    ∀ fuel, (utf8Encode cs).length ≤ fuel →
      utf8DecodeAux fuel (utf8Encode cs) = some cs := by
  induction cs with
  | nil =>
    intro fuel _
    show utf8DecodeAux fuel [] = some []
    cases fuel <;> rfl
  | cons c rest ih =>
    intro fuel hfuel
    have hv : c.toNat.isValidChar := char_valid_toNat c
    rcases Nat.lt_or_ge c.toNat 0x80 with h1 | h1
    · have henc : utf8EncodeChar c = [c.toNat] := by
        simp [utf8EncodeChar, h1]
      rw [utf8Encode_cons, henc] at hfuel ⊢
      cases fuel with
      | zero => simp at hfuel
      | succ f =>
        have hf : (utf8Encode rest).length ≤ f := by
          simp at hfuel
          omega
        show utf8DecodeAux (f + 1) (c.toNat :: utf8Encode rest) = some (c :: rest)
        simp only [utf8DecodeAux]
        rw [if_pos h1, ih f hf, Option.map_some', Char.ofNat_toNat]
    · rcases Nat.lt_or_ge c.toNat 0x800 with h2 | h2
      · have henc : utf8EncodeChar c
            = [0xC0 + c.toNat / 0x40, 0x80 + c.toNat % 0x40] := by
          simp [utf8EncodeChar, show ¬ c.toNat < 0x80 by omega, h2]
        rw [utf8Encode_cons, henc] at hfuel ⊢
        cases fuel with
        | zero => simp at hfuel
        | succ f =>
          have hf : (utf8Encode rest).length ≤ f := by
            simp at hfuel
            omega
          show utf8DecodeAux (f + 1)
              ((0xC0 + c.toNat / 0x40) :: (0x80 + c.toNat % 0x40)
                :: utf8Encode rest)
            = some (c :: rest)
          simp only [utf8DecodeAux]
          rw [if_neg (show ¬ 0xC0 + c.toNat / 0x40 < 0x80 by omega),
            if_pos (show 0xC2 ≤ 0xC0 + c.toNat / 0x40
                ∧ 0xC0 + c.toNat / 0x40 ≤ 0xDF by omega),
            if_pos (show 0x80 ≤ 0x80 + c.toNat % 0x40
                ∧ 0x80 + c.toNat % 0x40 < 0xC0 by omega),
            ih f hf, Option.map_some',
            show (0xC0 + c.toNat / 0x40 - 0xC0) * 0x40
                + (0x80 + c.toNat % 0x40 - 0x80) = c.toNat by omega,
            Char.ofNat_toNat]
      · rcases Nat.lt_or_ge c.toNat 0x10000 with h3 | h3
        · have hnosur : c.toNat < 0xD800 ∨ 0xE000 ≤ c.toNat := by
            rcases hv with h | ⟨h, h'⟩
            · exact Or.inl h
            · exact Or.inr (by omega)
          have henc : utf8EncodeChar c
              = [0xE0 + c.toNat / 0x1000, 0x80 + c.toNat / 0x40 % 0x40,
                  0x80 + c.toNat % 0x40] := by
            simp [utf8EncodeChar, show ¬ c.toNat < 0x80 by omega,
              show ¬ c.toNat < 0x800 by omega, h3]
          rw [utf8Encode_cons, henc] at hfuel ⊢
          cases fuel with
          | zero => simp at hfuel
          | succ f =>
            have hf : (utf8Encode rest).length ≤ f := by
              simp at hfuel
              omega
            show utf8DecodeAux (f + 1)
                ((0xE0 + c.toNat / 0x1000) :: (0x80 + c.toNat / 0x40 % 0x40)
                  :: (0x80 + c.toNat % 0x40) :: utf8Encode rest)
              = some (c :: rest)
            simp only [utf8DecodeAux]
            rw [if_neg (show ¬ 0xE0 + c.toNat / 0x1000 < 0x80 by omega),
              if_neg (show ¬ (0xC2 ≤ 0xE0 + c.toNat / 0x1000
                  ∧ 0xE0 + c.toNat / 0x1000 ≤ 0xDF) by omega),
              if_pos (show 0xE0 ≤ 0xE0 + c.toNat / 0x1000
                  ∧ 0xE0 + c.toNat / 0x1000 ≤ 0xEF by omega),
              ih f hf, Option.map_some',
              show (0xE0 + c.toNat / 0x1000 - 0xE0) * 0x1000
                  + (0x80 + c.toNat / 0x40 % 0x40 - 0x80) * 0x40
                  + (0x80 + c.toNat % 0x40 - 0x80) = c.toNat by omega,
              Char.ofNat_toNat]
            rcases Nat.lt_or_ge c.toNat 0x1000 with hn1 | hn1
            · simp only [if_pos (show 0xE0 + c.toNat / 0x1000 = 0xE0 by omega)]
              split
              · rfl
              · next hcond =>
                  exact absurd ⟨⟨by omega, by omega⟩, by omega, by omega⟩ hcond
            · rcases Nat.lt_or_ge c.toNat 0xD000 with hn2 | hn2
              · simp only [if_neg (show ¬ 0xE0 + c.toNat / 0x1000 = 0xE0 by omega),
                  if_neg (show ¬ 0xE0 + c.toNat / 0x1000 = 0xED by omega)]
                split
                · rfl
                · next hcond =>
                    exact absurd ⟨⟨by omega, by omega⟩, by omega, by omega⟩ hcond
              · rcases Nat.lt_or_ge c.toNat 0xE000 with hn3 | hn3
                · have hsur : c.toNat < 0xD800 := by
                    rcases hnosur with h | h <;> omega
                  simp only [if_neg (show ¬ 0xE0 + c.toNat / 0x1000 = 0xE0 by omega),
                    if_pos (show 0xE0 + c.toNat / 0x1000 = 0xED by omega)]
                  split
                  · rfl
                  · next hcond =>
                      exact absurd ⟨⟨by omega, by omega⟩, by omega, by omega⟩
                        hcond
                · simp only [if_neg (show ¬ 0xE0 + c.toNat / 0x1000 = 0xE0 by omega),
                    if_neg (show ¬ 0xE0 + c.toNat / 0x1000 = 0xED by omega)]
                  split
                  · rfl
                  · next hcond =>
                      exact absurd ⟨⟨by omega, by omega⟩, by omega, by omega⟩
                        hcond
        · have hu : c.toNat < 0x110000 := by
            rcases hv with h | ⟨h, h'⟩ <;> omega
          have henc : utf8EncodeChar c
              = [0xF0 + c.toNat / 0x40000, 0x80 + c.toNat / 0x1000 % 0x40,
                  0x80 + c.toNat / 0x40 % 0x40, 0x80 + c.toNat % 0x40] := by
            simp [utf8EncodeChar, show ¬ c.toNat < 0x80 by omega,
              show ¬ c.toNat < 0x800 by omega, show ¬ c.toNat < 0x10000 by omega]
          rw [utf8Encode_cons, henc] at hfuel ⊢
          cases fuel with
          | zero => simp at hfuel
          | succ f =>
            have hf : (utf8Encode rest).length ≤ f := by
              simp at hfuel
              omega
            show utf8DecodeAux (f + 1)
                ((0xF0 + c.toNat / 0x40000) :: (0x80 + c.toNat / 0x1000 % 0x40)
                  :: (0x80 + c.toNat / 0x40 % 0x40) :: (0x80 + c.toNat % 0x40)
                  :: utf8Encode rest)
              = some (c :: rest)
            simp only [utf8DecodeAux]
            rw [if_neg (show ¬ 0xF0 + c.toNat / 0x40000 < 0x80 by omega),
              if_neg (show ¬ (0xC2 ≤ 0xF0 + c.toNat / 0x40000
                  ∧ 0xF0 + c.toNat / 0x40000 ≤ 0xDF) by omega),
              if_neg (show ¬ (0xE0 ≤ 0xF0 + c.toNat / 0x40000
                  ∧ 0xF0 + c.toNat / 0x40000 ≤ 0xEF) by omega),
              if_pos (show 0xF0 ≤ 0xF0 + c.toNat / 0x40000
                  ∧ 0xF0 + c.toNat / 0x40000 ≤ 0xF4 by omega),
              ih f hf, Option.map_some',
              show (0xF0 + c.toNat / 0x40000 - 0xF0) * 0x40000
                  + (0x80 + c.toNat / 0x1000 % 0x40 - 0x80) * 0x1000
                  + (0x80 + c.toNat / 0x40 % 0x40 - 0x80) * 0x40
                  + (0x80 + c.toNat % 0x40 - 0x80) = c.toNat by omega,
              Char.ofNat_toNat]
            rcases Nat.lt_or_ge c.toNat 0x40000 with hn1 | hn1
            · simp only [if_pos (show 0xF0 + c.toNat / 0x40000 = 0xF0 by omega)]
              split
              · rfl
              · next hcond =>
                  exact absurd
                    ⟨⟨by omega, by omega⟩, ⟨by omega, by omega⟩, by omega,
                      by omega⟩ hcond
            · rcases Nat.lt_or_ge c.toNat 0x100000 with hn2 | hn2
              · simp only [if_neg (show ¬ 0xF0 + c.toNat / 0x40000 = 0xF0 by omega),
                  if_neg (show ¬ 0xF0 + c.toNat / 0x40000 = 0xF4 by omega)]
                split
                · rfl
                · next hcond =>
                    exact absurd
                      ⟨⟨by omega, by omega⟩, ⟨by omega, by omega⟩, by omega,
                        by omega⟩ hcond
              · simp only [if_neg (show ¬ 0xF0 + c.toNat / 0x40000 = 0xF0 by omega),
                  if_pos (show 0xF0 + c.toNat / 0x40000 = 0xF4 by omega)]
                split
                · rfl
                · next hcond =>
                    exact absurd
                      ⟨⟨by omega, by omega⟩, ⟨by omega, by omega⟩, by omega,
                        by omega⟩ hcond

/-- Soundness of the embedded decoder: whatever it accepts is exactly the
UTF-8 encoding of the character sequence it returns. -/
theorem utf8DecodeAux_sound :
    ∀ fuel bs cs, utf8DecodeAux fuel bs = some cs → utf8Encode cs = bs := by
  intro fuel
  induction fuel with
  | zero =>
    intro bs cs h
    cases bs with
    | nil =>
      simp only [utf8DecodeAux] at h
      cases h
      rfl
    | cons b rest => simp [utf8DecodeAux] at h
  | succ f ih =>
    intro bs cs h
    cases bs with
    | nil =>
      simp only [utf8DecodeAux] at h
      cases h
      rfl
    | cons b rest =>
      by_cases h1 : b < 0x80
      · simp only [utf8DecodeAux, if_pos h1, Option.map_eq_some'] at h
        obtain ⟨cs', hd, hcs⟩ := h
        subst hcs
        have htn : (Char.ofNat b).toNat = b :=
          char_toNat_ofNat b (Or.inl (by omega))
        rw [utf8Encode_cons, ih rest cs' hd,
          show utf8EncodeChar (Char.ofNat b) = [b] from by
            simp [utf8EncodeChar, htn, h1]]
        rfl
      · by_cases h2 : 0xC2 ≤ b ∧ b ≤ 0xDF
        · cases rest with
          | nil => simp [utf8DecodeAux, if_neg h1, if_pos h2] at h
          | cons b1 rest2 =>
            simp only [utf8DecodeAux, if_neg h1, if_pos h2] at h
            by_cases hg : 0x80 ≤ b1 ∧ b1 < 0xC0
            · rw [if_pos hg, Option.map_eq_some'] at h
              obtain ⟨cs', hd, hcs⟩ := h
              subst hcs
              have hval : ((b - 0xC0) * 0x40 + (b1 - 0x80)).isValidChar := by
                simp only [Nat.isValidChar]
                omega
              have htn := char_toNat_ofNat _ hval
              rw [utf8Encode_cons, ih rest2 cs' hd,
                show utf8EncodeChar (Char.ofNat ((b - 0xC0) * 0x40
                    + (b1 - 0x80))) = [b, b1] from by
                  simp only [utf8EncodeChar, htn]
                  rw [if_neg (show ¬ ((b - 0xC0) * 0x40 + (b1 - 0x80) < 0x80)
                      by omega),
                    if_pos (show (b - 0xC0) * 0x40 + (b1 - 0x80) < 0x800
                      by omega),
                    show 0xC0 + ((b - 0xC0) * 0x40 + (b1 - 0x80)) / 0x40 = b
                      by omega,
                    show 0x80 + ((b - 0xC0) * 0x40 + (b1 - 0x80)) % 0x40 = b1
                      by omega]]
              rfl
            · rw [if_neg hg] at h
              cases h
        · by_cases h3 : 0xE0 ≤ b ∧ b ≤ 0xEF
          · cases rest with
            | nil => simp [utf8DecodeAux, if_neg h1, if_neg h2, if_pos h3] at h
            | cons b1 rest' =>
              cases rest' with
              | nil =>
                simp [utf8DecodeAux, if_neg h1, if_neg h2, if_pos h3] at h
              | cons b2 rest3 =>
                simp only [utf8DecodeAux, if_neg h1, if_neg h2, if_pos h3] at h
                by_cases hg : (if b = 0xE0 then 0xA0 ≤ b1 ∧ b1 < 0xC0
                    else if b = 0xED then 0x80 ≤ b1 ∧ b1 < 0xA0
                    else 0x80 ≤ b1 ∧ b1 < 0xC0) ∧ 0x80 ≤ b2 ∧ b2 < 0xC0
                · rw [if_pos hg, Option.map_eq_some'] at h
                  obtain ⟨cs', hd, hcs⟩ := h
                  subst hcs
                  have hb2w : 0x80 ≤ b2 ∧ b2 < 0xC0 := hg.2
                  have hb1w : 0x80 ≤ b1 ∧ b1 < 0xC0 := by
                    have hg1 := hg.1
                    split_ifs at hg1 <;> omega
                  have hA : 0x800 ≤ (b - 0xE0) * 0x1000 + (b1 - 0x80) * 0x40
                      + (b2 - 0x80) ∧ (b - 0xE0) * 0x1000 + (b1 - 0x80) * 0x40
                      + (b2 - 0x80) < 0x10000 := by
                    have hg1 := hg.1
                    split_ifs at hg1 <;> omega
                  have hval : ((b - 0xE0) * 0x1000 + (b1 - 0x80) * 0x40
                      + (b2 - 0x80)).isValidChar := by
                    simp only [Nat.isValidChar]
                    have hg1 := hg.1
                    split_ifs at hg1 <;> omega
                  have htn := char_toNat_ofNat _ hval
                  rw [utf8Encode_cons, ih rest3 cs' hd,
                    show utf8EncodeChar (Char.ofNat ((b - 0xE0) * 0x1000
                        + (b1 - 0x80) * 0x40 + (b2 - 0x80))) = [b, b1, b2]
                      from by
                      simp only [utf8EncodeChar, htn]
                      rw [if_neg (show ¬ ((b - 0xE0) * 0x1000
                            + (b1 - 0x80) * 0x40 + (b2 - 0x80) < 0x80)
                          by omega),
                        if_neg (show ¬ ((b - 0xE0) * 0x1000
                            + (b1 - 0x80) * 0x40 + (b2 - 0x80) < 0x800)
                          by omega),
                        if_pos (show (b - 0xE0) * 0x1000 + (b1 - 0x80) * 0x40
                            + (b2 - 0x80) < 0x10000 by omega),
                        show 0xE0 + ((b - 0xE0) * 0x1000 + (b1 - 0x80) * 0x40
                            + (b2 - 0x80)) / 0x1000 = b by omega,
                        show 0x80 + ((b - 0xE0) * 0x1000 + (b1 - 0x80) * 0x40
                            + (b2 - 0x80)) / 0x40 % 0x40 = b1 by omega,
                        show 0x80 + ((b - 0xE0) * 0x1000 + (b1 - 0x80) * 0x40
                            + (b2 - 0x80)) % 0x40 = b2 by omega]]
                  rfl
                · rw [if_neg hg] at h
                  cases h
          · by_cases h4 : 0xF0 ≤ b ∧ b ≤ 0xF4
            · cases rest with
              | nil =>
                simp [utf8DecodeAux, if_neg h1, if_neg h2, if_neg h3,
                  if_pos h4] at h
              | cons b1 r1 =>
                cases r1 with
                | nil =>
                  simp [utf8DecodeAux, if_neg h1, if_neg h2, if_neg h3,
                    if_pos h4] at h
                | cons b2 r2 =>
                  cases r2 with
                  | nil =>
                    simp [utf8DecodeAux, if_neg h1, if_neg h2, if_neg h3,
                      if_pos h4] at h
                  | cons b3 rest4 =>
                    simp only [utf8DecodeAux, if_neg h1, if_neg h2, if_neg h3,
                      if_pos h4] at h
                    by_cases hg : (if b = 0xF0 then 0x90 ≤ b1 ∧ b1 < 0xC0
                        else if b = 0xF4 then 0x80 ≤ b1 ∧ b1 < 0x90
                        else 0x80 ≤ b1 ∧ b1 < 0xC0) ∧ (0x80 ≤ b2 ∧ b2 < 0xC0)
                        ∧ (0x80 ≤ b3 ∧ b3 < 0xC0)
                    · rw [if_pos hg, Option.map_eq_some'] at h
                      obtain ⟨cs', hd, hcs⟩ := h
                      subst hcs
                      have hb2w : 0x80 ≤ b2 ∧ b2 < 0xC0 := hg.2.1
                      have hb3w : 0x80 ≤ b3 ∧ b3 < 0xC0 := hg.2.2
                      have hb1w : 0x80 ≤ b1 ∧ b1 < 0xC0 := by
                        have hg1 := hg.1
                        split_ifs at hg1 <;> omega
                      have hA : 0x10000 ≤ (b - 0xF0) * 0x40000
                          + (b1 - 0x80) * 0x1000 + (b2 - 0x80) * 0x40
                          + (b3 - 0x80) ∧ (b - 0xF0) * 0x40000
                          + (b1 - 0x80) * 0x1000 + (b2 - 0x80) * 0x40
                          + (b3 - 0x80) < 0x110000 := by
                        have hg1 := hg.1
                        split_ifs at hg1 <;> omega
                      have hval : ((b - 0xF0) * 0x40000 + (b1 - 0x80) * 0x1000
                          + (b2 - 0x80) * 0x40 + (b3 - 0x80)).isValidChar := by
                        simp only [Nat.isValidChar]
                        omega
                      have htn := char_toNat_ofNat _ hval
                      rw [utf8Encode_cons, ih rest4 cs' hd,
                        show utf8EncodeChar (Char.ofNat ((b - 0xF0) * 0x40000
                            + (b1 - 0x80) * 0x1000 + (b2 - 0x80) * 0x40
                            + (b3 - 0x80))) = [b, b1, b2, b3] from by
                          simp only [utf8EncodeChar, htn]
                          rw [if_neg (show ¬ ((b - 0xF0) * 0x40000
                                + (b1 - 0x80) * 0x1000 + (b2 - 0x80) * 0x40
                                + (b3 - 0x80) < 0x80) by omega),
                            if_neg (show ¬ ((b - 0xF0) * 0x40000
                                + (b1 - 0x80) * 0x1000 + (b2 - 0x80) * 0x40
                                + (b3 - 0x80) < 0x800) by omega),
                            if_neg (show ¬ ((b - 0xF0) * 0x40000
                                + (b1 - 0x80) * 0x1000 + (b2 - 0x80) * 0x40
                                + (b3 - 0x80) < 0x10000) by omega),
                            show 0xF0 + ((b - 0xF0) * 0x40000
                                + (b1 - 0x80) * 0x1000 + (b2 - 0x80) * 0x40
                                + (b3 - 0x80)) / 0x40000 = b by omega,
                            show 0x80 + ((b - 0xF0) * 0x40000
                                + (b1 - 0x80) * 0x1000 + (b2 - 0x80) * 0x40
                                + (b3 - 0x80)) / 0x1000 % 0x40 = b1 by omega,
                            show 0x80 + ((b - 0xF0) * 0x40000
                                + (b1 - 0x80) * 0x1000 + (b2 - 0x80) * 0x40
                                + (b3 - 0x80)) / 0x40 % 0x40 = b2 by omega,
                            show 0x80 + ((b - 0xF0) * 0x40000
                                + (b1 - 0x80) * 0x1000 + (b2 - 0x80) * 0x40
                                + (b3 - 0x80)) % 0x40 = b3 by omega]]
                      rfl
                    · rw [if_neg hg] at h
                      cases h
            · simp only [utf8DecodeAux, if_neg h1, if_neg h2, if_neg h3,
                if_neg h4] at h
              cases h

/-- C8: `parse_string` succeeds and returns the decoded text on every byte
sequence that is valid UTF-8 — i.e. the encoding of some character sequence,
including the empty one — and fails on every byte sequence that is not valid
UTF-8, for example the two-byte sequence `0xC3, 0x28`. -/
theorem C8_parse_string (bytes : List Nat) :
    (∀ cs : List Char, utf8Encode cs = bytes →
      parse_string bytes = Except.ok (String.mk cs)) ∧
    ((∀ cs : List Char, utf8Encode cs ≠ bytes) →
      parse_string bytes = Except.error Error.Utf8Error) ∧
    parse_string [] = Except.ok "" ∧
    parse_string [0xC3, 0x28] = Except.error Error.Utf8Error := by
  refine ⟨?_, ?_, by decide, by decide⟩
  · intro cs hcs
    subst hcs
    unfold parse_string utf8Decode
    rw [utf8DecodeAux_encode cs (utf8Encode cs).length (le_refl _)]
  · intro hno
    unfold parse_string
    cases hd : utf8Decode bytes with
    | none => rfl
    | some cs =>
      exact absurd (utf8DecodeAux_sound bytes.length bytes cs hd) (hno cs)

/-- Witness for C8: the valid sequence `0x68, 0x69` decodes to `"hi"` via the
first clause of the theorem, the empty sequence succeeds, and `0xC3, 0x28`
fails. -/
theorem C8_parse_string_witness :
    parse_string [0x68, 0x69] = Except.ok (String.mk ['h', 'i']) ∧
    parse_string [] = Except.ok "" ∧
    parse_string [0xC3, 0x28] = Except.error Error.Utf8Error :=
  ⟨(C8_parse_string [0x68, 0x69]).1 ['h', 'i'] (by decide),
   (C8_parse_string []).2.2.1,
   (C8_parse_string [0xC3, 0x28]).2.2.2⟩
